import Mathlib

/-!
Verification of the sysadmin-ai policy engine and sandbox manager.

This file gives a shallow embedding of `src/sysadmin_ai/policy/engine.py`
and `src/sysadmin_ai/sandbox/manager.py` and proves properties of the
embedded definitions.

Modeling conventions:
* Python regular-expression matching (`re.compile(pattern, re.IGNORECASE)`
  followed by `.search`) is external library code; a compiled pattern is
  modeled as an opaque Boolean matcher `String → Bool` stored on the rule,
  and `re.compile` itself as an oracle `String → Option (String → Bool)`
  (`none` models `re.error` for an invalid pattern).
* Python `sorted` is a stable sort; a stable sort by a fixed key is unique,
  and `List.insertionSort` with the reflexive relation
  `rank a ≤ rank b` realizes exactly that stable sort.
* `dict` values keyed by strings are modeled as insertion-ordered
  association lists with the update/remove semantics of Python dicts.
* Wall-clock times (`time.time()`) are modeled as integers; only
  differences and comparisons of times matter to the code under study.
* Subprocess execution is modeled by an oracle
  `sys : String → Int → SysOutcome` giving, for a command and the timeout
  actually applied, either completion data or expiry of the timeout
  (`subprocess.TimeoutExpired`).
* Python object identity for the mutable `SandboxConfig` argument of
  `create_sandbox` is modeled by a heap `Nat → SandboxConfig`; a sandbox
  stores a reference (`Nat`) into that heap, exactly as the Python object
  holds a reference to the config object.
-/

/-- The `PolicyAction` enum of `policy/engine.py`. -/
inductive PolicyAction where
  | allow
  | block
  | confirm
  | log
deriving DecidableEq

/-- The `.value` string of a `PolicyAction` member. -/
def PolicyAction.value : PolicyAction → String
  | .allow => "allow"
  | .block => "block"
  | .confirm => "confirm"
  | .log => "log"

/-- `PolicyAction(s)` on a string: `some` member with that value, else
`ValueError` (modeled as `none`). -/
def parseAction (s : String) : Option PolicyAction :=
  if s = "allow" then some .allow
  else if s = "block" then some .block
  else if s = "confirm" then some .confirm
  else if s = "log" then some .log
  else none

/-- The `PolicyRule` dataclass. The compiled regex of `__post_init__` is
the opaque matcher `matchesCmd` (see the header comment); `rule.matches(cmd)`
in the source is `r.matchesCmd cmd` here (`matches` is a Lean keyword). -/
structure PolicyRule where
  name : String
  description : String
  pattern : String
  action : PolicyAction
  severity : String := "medium"
  metadata : List (String × String) := []
  matchesCmd : String → Bool

/-- Evaluation context: the `dict[str, Any]` context is modeled as an
association list of string pairs. -/
abbrev Ctx := List (String × String)

/-- The context `{"command": command, **context}` built by the engine. -/
def mkCtx (command : String) (context : Ctx) : Ctx :=
  ("command", command) :: context

/-- The `PolicyResult` dataclass. -/
structure PolicyResult where
  allowed : Bool
  action : PolicyAction
  rule : Option PolicyRule := none
  message : String := ""
  context : Ctx := []

/-- The `requires_confirmation` property of `PolicyResult`. -/
def PolicyResult.requires_confirmation (p : PolicyResult) : Bool :=
  p.action == PolicyAction.confirm

/-- The severity key of `_evaluate_local`:
`{"critical": 0, "high": 1, "medium": 2, "low": 3}.get(r.severity, 4)`. -/
def severityRank (s : String) : Nat :=
  if s = "critical" then 0
  else if s = "high" then 1
  else if s = "medium" then 2
  else if s = "low" then 3
  else 4

/-- A severity string that appears in the rank table of `_evaluate_local`. -/
def severityRecognized (s : String) : Prop :=
  s = "critical" ∨ s = "high" ∨ s = "medium" ∨ s = "low"

instance (s : String) : Decidable (severityRecognized s) := by
  unfold severityRecognized; infer_instance

/-- Comparison by severity rank, the sort relation of `_evaluate_local`. -/
def ruleLE (a b : PolicyRule) : Prop :=
  severityRank a.severity ≤ severityRank b.severity

instance : DecidableRel ruleLE := fun a b =>
  inferInstanceAs (Decidable (severityRank a.severity ≤ severityRank b.severity))

instance : IsTotal PolicyRule ruleLE :=
  ⟨fun a b => Nat.le_total (severityRank a.severity) (severityRank b.severity)⟩

instance : IsTrans PolicyRule ruleLE :=
  ⟨fun _ _ _ hab hbc => Nat.le_trans hab hbc⟩

/-- `sorted(self._rules, key=severity rank)`: Python `sorted` is stable,
and `List.insertionSort` with the reflexive relation `ruleLE` is exactly
that stable sort (see the header comment). -/
def sortedBySeverity (rules : List PolicyRule) : List PolicyRule :=
  rules.insertionSort ruleLE

/-- Specification-side description of the stable sort: the rules of rank
`k`, in their original relative order. -/
def severityBucket (k : Nat) (rules : List PolicyRule) : List PolicyRule :=
  rules.filter (fun r => severityRank r.severity == k)

/-- Specification-side description of `sorted by severity rank, stable`:
all rank-0 rules in original order, then rank 1, rank 2, rank 3, rank 4. -/
def severitySortedSpec (rules : List PolicyRule) : List PolicyRule :=
  severityBucket 0 rules ++ severityBucket 1 rules ++ severityBucket 2 rules
    ++ severityBucket 3 rules ++ severityBucket 4 rules

/-- Result built by `_evaluate_local` for a matched rule. -/
def matchedResult (r : PolicyRule) (command : String) (context : Ctx) : PolicyResult :=
  { allowed := r.action == PolicyAction.allow || r.action == PolicyAction.log
      || r.action == PolicyAction.confirm
    action := r.action
    rule := some r
    message := "Policy " ++ r.name ++ ": " ++ r.description
    context := mkCtx command context }

/-- Default result of `_evaluate_local` when no rule matched. -/
def defaultAllowResult (command : String) (context : Ctx) : PolicyResult :=
  { allowed := true
    action := PolicyAction.allow
    rule := none
    message := "No policy restrictions apply"
    context := mkCtx command context }

/-- The `for rule in sorted_rules: if rule.matches(command): return ...`
loop of `_evaluate_local`, on an already sorted list. -/
def evalLoop (command : String) (context : Ctx) : List PolicyRule → PolicyResult
  | [] => defaultAllowResult command context
  | r :: rest =>
    if r.matchesCmd command then matchedResult r command context
    else evalLoop command context rest

/-- `PolicyEngine._evaluate_local`. -/
def evaluate_local (rules : List PolicyRule) (command : String) (context : Ctx) :
    PolicyResult :=
  evalLoop command context (sortedBySeverity rules)

/-- The body of an HTTP response from the OPA server, as seen by
`response.json()`: either not JSON (raises) or a JSON object whose
optional `result` field is read by `result.get("result", False)`. -/
inductive OpaBody where
  | malformed
  | obj (result? : Option Bool)

/-- Outcome of the `httpx.post` call of `_evaluate_opa`: either an
exception from the network layer, or a status code with a body. -/
inductive OpaResponse where
  | networkError (msg : String)
  | httpResponse (status : Nat) (body : OpaBody)

/-- The `PolicyEngine` state relevant to evaluation: the rule list and
the OPA configuration/availability flags. -/
structure PolicyEngine where
  rules : List PolicyRule
  use_opa : Bool
  opa_available : Bool

/-- The `except Exception` branch of `_evaluate_opa`: a synthesized Block
result (note: the source comment says it falls back to local evaluation,
but the code returns this Block result instead). -/
def opaFailureResult (command : String) (context : Ctx) (err : String) : PolicyResult :=
  { allowed := false
    action := PolicyAction.block
    rule := none
    message := "OPA evaluation failed: " ++ err
    context := ("command", command) :: ("error", err) :: context }

/-- `PolicyEngine._evaluate_opa`, parameterized by the outcome of the
HTTP request. -/
def evaluate_opa (rules : List PolicyRule) (command : String) (context : Ctx)
    (resp : OpaResponse) : PolicyResult :=
  match resp with
  | .networkError msg => opaFailureResult command context msg
  | .httpResponse status body =>
    if status = 200 then
      match body with
      | .malformed => opaFailureResult command context "malformed body"
      | .obj result? =>
        let allowed := result?.getD false
        { allowed := allowed
          action := if allowed then PolicyAction.allow else PolicyAction.block
          rule := none
          message := if allowed then "OPA policy evaluation" else "OPA policy denied"
          context := mkCtx command context }
    else
      evaluate_local rules command context

/-- `PolicyEngine.evaluate`, parameterized by the OPA response outcome
(consulted only on the OPA path). -/
def evaluate (engine : PolicyEngine) (command : String) (context : Ctx)
    (resp : OpaResponse) : PolicyResult :=
  if engine.use_opa && engine.opa_available then
    evaluate_opa engine.rules command context resp
  else
    evaluate_local engine.rules command context

/-- Kinds of exception raised while parsing one rule entry in
`_load_policy_files`: `json.JSONDecodeError` (file not JSON), `KeyError`
(missing required field), `ValueError` (unknown action string), and
`re.error` (invalid regex raised by `re.compile` in
`PolicyRule.__post_init__`). -/
inductive LoadErr where
  | jsonDecode
  | keyError
  | valueError
  | regexError
deriving DecidableEq

/-- Whether the `except (json.JSONDecodeError, KeyError, ValueError)`
clause of `_load_policy_files` catches this exception. `re.error` is a
direct subclass of `Exception`, not of `ValueError`, so it is not caught. -/
def LoadErr.isCaught : LoadErr → Bool
  | .jsonDecode => true
  | .keyError => true
  | .valueError => true
  | .regexError => false

/-- One entry of the `rules` array of a policy JSON file; `none` models a
missing key (`rule_data[...]` raises `KeyError`, `.get` supplies the
default). -/
structure RuleData where
  name : Option String
  description : Option String
  pattern : Option String
  action : Option String
  severity : Option String := none
  metadata : List (String × String) := []

/-- Constructing one `PolicyRule` from a rules-array entry, exactly as in
the loop body of `_load_policy_files`: missing required field raises
`KeyError`, an unknown action string raises `ValueError` from
`PolicyAction(...)`, and an invalid regex raises `re.error` from
`re.compile` in `__post_init__` (rule-construction time). `compile` is
the `re.compile` oracle of the header comment. -/
def parseEntry (compile : String → Option (String → Bool)) (e : RuleData) :
    Except LoadErr PolicyRule :=
  match e.name with
  | none => .error .keyError
  | some nm =>
  match e.description with
  | none => .error .keyError
  | some descr =>
  match e.pattern with
  | none => .error .keyError
  | some pat =>
  match e.action with
  | none => .error .keyError
  | some act =>
  match parseAction act with
  | none => .error .valueError
  | some action =>
  match compile pat with
  | none => .error .regexError
  | some matcher =>
      .ok { name := nm, description := descr, pattern := pat, action := action
            severity := e.severity.getD "medium", metadata := e.metadata
            matchesCmd := matcher }

/-- Outcome of loading one policy file: either the file was processed
(possibly stopping early with a printed warning), or an uncaught
exception escaped `_load_policy_files` (fatal for engine construction). -/
inductive LoadOutcome where
  | ok (rules : List PolicyRule) (warned : Bool)
  | fatal (err : LoadErr)

/-- The `for rule_data in data.get("rules", [])` loop of
`_load_policy_files`, with `acc` the rules appended so far. The whole
loop runs inside one `try`, so a caught exception abandons the rest of
the file (keeping earlier appends) and an uncaught one propagates. -/
def loadLoop (compile : String → Option (String → Bool)) :
    List RuleData → List PolicyRule → LoadOutcome
  | [], acc => .ok acc false
  | e :: rest, acc =>
    match parseEntry compile e with
    | .ok r => loadLoop compile rest (acc ++ [r])
    | .error err => if err.isCaught then .ok acc true else .fatal err

/-- Loading the `rules` array of one policy file
(`PolicyEngine._load_policy_files`, per-file body). -/
def loadFile (compile : String → Option (String → Bool)) (entries : List RuleData) :
    LoadOutcome :=
  loadLoop compile entries []

/-- The rules of the entries that parse, in order (used to state what a
run of well-formed entries contributes). -/
def parsedRules (compile : String → Option (String → Bool)) (entries : List RuleData) :
    List PolicyRule :=
  entries.filterMap (fun e => (parseEntry compile e).toOption)

/-- One element of the `all_matching_rules` list built by `dry_run`. -/
structure RuleSummary where
  name : String
  action : String
  severity : String
deriving DecidableEq

/-- The `{"name": ..., "action": ..., "severity": ...}` dict for a rule. -/
def summarize (r : PolicyRule) : RuleSummary :=
  { name := r.name, action := r.action.value, severity := r.severity }

/-- The dict returned by `PolicyEngine.dry_run`. -/
structure DryRunInfo where
  command : String
  would_execute : Bool
  requires_confirmation : Bool
  action : String
  rule_matched : Option String
  message : String
  all_matching_rules : List RuleSummary

/-- `PolicyEngine.dry_run`. -/
def dry_run (engine : PolicyEngine) (command : String) (context : Ctx)
    (resp : OpaResponse) : DryRunInfo :=
  let result := evaluate engine command context resp
  { command := command
    would_execute := result.allowed && !result.requires_confirmation
    requires_confirmation := result.requires_confirmation
    action := result.action.value
    rule_matched := result.rule.map (fun r => r.name)
    message := result.message
    all_matching_rules :=
      (engine.rules.filter (fun r => r.matchesCmd command)).map summarize }

/-- The `SandboxConfig` dataclass of `sandbox/manager.py` (`namespace` is
a Lean keyword and is rendered `nspace`). -/
structure SandboxConfig where
  user_id : Option String := none
  nspace : String := "default"
  cpu_limit : String := "1.0"
  memory_limit : String := "512m"
  disk_limit : String := "1g"
  network_mode : String := "none"
  allowed_hosts : List String := []
  read_only_paths : List String := []
  writable_paths : List String := []
  command_timeout : Int := 30
  max_session_duration : Int := 3600
  drop_capabilities : Bool := true
  no_new_privileges : Bool := true
  seccomp_profile : Option String := none
deriving DecidableEq

/-- Heap of `SandboxConfig` objects, modeling Python object identity for
the mutable config argument (see the header comment). -/
abbrev ConfigHeap := Nat → SandboxConfig

/-- In-place mutation of the config object at reference `r`. -/
def heapUpdate (h : ConfigHeap) (r : Nat) (c : SandboxConfig) : ConfigHeap :=
  fun i => if i = r then c else h i

/-- The `Sandbox` dataclass. `configRef` is the reference to the (shared,
mutable) `SandboxConfig` object; `created_at` and `last_activity` are the
`time.time()` default-factory values. -/
structure Sandbox where
  id : String
  configRef : Nat
  created_at : Int
  last_activity : Int
  command_count : Nat := 0
  temp_dir : Option String := none
  docker_container : Option String := none
  k8s_pod : Option String := none
deriving DecidableEq

/-- The config object a sandbox sees through its stored reference. -/
def configOf (h : ConfigHeap) (sb : Sandbox) : SandboxConfig :=
  h sb.configRef

/-- The `SandboxManager` state: the detected backend string and the
`_sandboxes` dict (insertion-ordered association list). -/
structure SandboxManager where
  backend : String
  sandboxes : List (String × Sandbox)
deriving DecidableEq

/-- `self._sandboxes.get(k)`. -/
def dictGet (d : List (String × Sandbox)) (k : String) : Option Sandbox :=
  (d.find? (fun p => p.1 == k)).map (fun p => p.2)

/-- `self._sandboxes[k] = v`: replace in place if the key is present,
else append (Python dict assignment preserves insertion order). -/
def dictSet (d : List (String × Sandbox)) (k : String) (v : Sandbox) :
    List (String × Sandbox) :=
  if d.any (fun p => p.1 == k) then
    d.map (fun p => if p.1 == k then (k, v) else p)
  else
    d ++ [(k, v)]

/-- `del self._sandboxes[k]` (order of the other entries preserved). -/
def dictRemove (d : List (String × Sandbox)) (k : String) :
    List (String × Sandbox) :=
  d.filter (fun p => !(p.1 == k))

/-- `SandboxManager.list_sandboxes`: `list(self._sandboxes.values())`. -/
def list_sandboxes (m : SandboxManager) : List Sandbox :=
  m.sandboxes.map (fun p => p.2)

/-- The dict returned by the `_execute_*` backends. -/
structure ExecResult where
  stdout : String
  stderr : String
  exit_code : Int
  timed_out : Bool
deriving DecidableEq

/-- Outcome of a `subprocess.run(..., timeout=t)` call: completion data,
or `subprocess.TimeoutExpired`. -/
inductive SysOutcome where
  | completed (stdout stderr : String) (exit_code : Int)
  | timeoutExpired
deriving DecidableEq

/-- The timeout actually applied by `execute_in_sandbox`:
`timeout = timeout or sandbox.config.command_timeout` (Python `or`, so a
caller-supplied `0` is falsy and the config default is used). -/
def effectiveTimeout (timeout : Option Int) (cfgTimeout : Int) : Int :=
  match timeout with
  | some t => if t = 0 then cfgTimeout else t
  | none => cfgTimeout

/-- The `except subprocess.TimeoutExpired` result of the docker and
chroot backends. -/
def timeoutResult (t : Int) : ExecResult :=
  { stdout := ""
    stderr := "Command timed out after " ++ toString t ++ "s"
    exit_code := -1
    timed_out := true }

/-- `SandboxManager._execute_docker`: run via the subprocess oracle with
the applied timeout (the docker command line and working directory are
part of the external environment the oracle stands for). -/
def execute_docker (_sb : Sandbox) (command : String) (t : Int)
    (sys : String → Int → SysOutcome) : ExecResult :=
  match sys command t with
  | .completed out err code =>
    { stdout := out, stderr := err, exit_code := code, timed_out := false }
  | .timeoutExpired => timeoutResult t

/-- `SandboxManager._execute_k8s`: a placeholder that ignores the command
and the timeout entirely. -/
def execute_k8s (_sb : Sandbox) (_command : String) (_t : Int) : ExecResult :=
  { stdout := ""
    stderr := "K8s execution not fully implemented"
    exit_code := 1
    timed_out := false }

/-- `SandboxManager._execute_chroot`: `subprocess.run(command, shell=True,
cwd=..., timeout=t)` via the subprocess oracle. -/
def execute_chroot (_sb : Sandbox) (command : String) (t : Int)
    (sys : String → Int → SysOutcome) : ExecResult :=
  match sys command t with
  | .completed out err code =>
    { stdout := out, stderr := err, exit_code := code, timed_out := false }
  | .timeoutExpired => timeoutResult t

/-- Backend dispatch at the end of `execute_in_sandbox`: `if "docker"
... elif "k8s" ... else` chroot (any other backend string falls through
to the chroot path). -/
def backendDispatch (backend : String) (sb : Sandbox) (command : String) (t : Int)
    (sys : String → Int → SysOutcome) : ExecResult :=
  if backend == "docker" then execute_docker sb command t sys
  else if backend == "k8s" then execute_k8s sb command t
  else execute_chroot sb command t sys

/-- The per-call mutation of `execute_in_sandbox`:
`sandbox.last_activity = time.time(); sandbox.command_count += 1`. -/
def bumpSandbox (sb : Sandbox) (now : Int) : Sandbox :=
  { sb with last_activity := now, command_count := sb.command_count + 1 }

/-- `SandboxManager.execute_in_sandbox`. An unknown sandbox id raises
`ValueError` (`Except.error`); otherwise `last_activity` and
`command_count` are updated (once, before backend dispatch) and the
backend runs the command. -/
def execute_in_sandbox (m : SandboxManager) (heap : ConfigHeap)
    (sandbox_id command : String) (_cwd : Option String) (timeout : Option Int)
    (now : Int) (sys : String → Int → SysOutcome) :
    Except String (SandboxManager × ExecResult) :=
  match dictGet m.sandboxes sandbox_id with
  | none => .error ("Sandbox " ++ sandbox_id ++ " not found")
  | some sandbox =>
    let t := effectiveTimeout timeout (heap sandbox.configRef).command_timeout
    let sandbox' := bumpSandbox sandbox now
    let m' := { m with sandboxes := dictSet m.sandboxes sandbox_id sandbox' }
    .ok (m', backendDispatch m.backend sandbox' command t sys)

/-- External inputs consumed by `create_sandbox`: the two generated
uuids, the creation time, and the result of the `docker run` provisioning
call (`.error` models `subprocess.CalledProcessError`, re-raised as
`RuntimeError`). -/
structure CreateEnv where
  freshUserId : String
  idSuffix : String
  now : Int
  dockerCreate : Except String String

/-- `user_id or str(uuid.uuid4())` (Python `or`: an absent or empty
user id is falsy). -/
def effectiveUserId (user_id : Option String) (fresh : String) : String :=
  match user_id with
  | some u => if u = "" then fresh else u
  | none => fresh

/-- The `_create_docker_sandbox` / `_create_k8s_sandbox` /
`_create_chroot_sandbox` dispatch of `create_sandbox`. A failing
`docker run` raises `RuntimeError` (sandbox not registered); an
unrecognized backend string provisions nothing but still registers. -/
def backendProvision (backend : String) (sb : Sandbox) (env : CreateEnv) :
    Except String Sandbox :=
  if backend == "docker" then
    match env.dockerCreate with
    | .ok cid => .ok { sb with temp_dir := some ("/tmp/sysadmin-ai-sandboxes/" ++ sb.id)
                               docker_container := some cid }
    | .error e => .error ("Failed to create Docker sandbox: " ++ e)
  else if backend == "k8s" then .ok { sb with k8s_pod := some sb.id }
  else if backend == "chroot" then
    .ok { sb with temp_dir := some ("/tmp/sysadmin-ai-sandboxes/" ++ sb.id) }
  else .ok sb

/-- `SandboxManager.create_sandbox`. `configRef = none` models passing
`config=None` (a fresh default config object is allocated at `freshRef`);
`configRef = some r` models passing the caller-owned config object `r`.
The returned heap reflects the in-place `config.user_id = ...` mutation,
which persists even when provisioning fails and the call raises. -/
def create_sandbox (m : SandboxManager) (heap : ConfigHeap) (freshRef : Nat)
    (user_id : Option String) (configRef : Option Nat) (env : CreateEnv) :
    ConfigHeap × Except String (SandboxManager × Sandbox) :=
  let ref := match configRef with
    | some r => r
    | none => freshRef
  let heap0 := match configRef with
    | some _ => heap
    | none => heapUpdate heap freshRef {}
  let uid := effectiveUserId user_id env.freshUserId
  let heap1 := heapUpdate heap0 ref { heap0 ref with user_id := some uid }
  let sid := "sandbox-" ++ uid ++ "-" ++ env.idSuffix
  let sb0 : Sandbox := { id := sid, configRef := ref, created_at := env.now
                         last_activity := env.now }
  (heap1, (backendProvision m.backend sb0 env).map
    (fun sb1 => ({ m with sandboxes := dictSet m.sandboxes sid sb1 }, sb1)))

/-- `SandboxManager.destroy_sandbox`: idempotent removal by id (backend
cleanup is an external effect on container/filesystem state). -/
def destroy_sandbox (m : SandboxManager) (sandbox_id : String) : SandboxManager :=
  match dictGet m.sandboxes sandbox_id with
  | none => m
  | some _ => { m with sandboxes := dictRemove m.sandboxes sandbox_id }

/-- `SandboxManager.cleanup_expired`: collect the ids whose idle time
exceeds `max_idle_seconds` (strictly), destroy each, return the count. -/
def cleanup_expired (m : SandboxManager) (now : Int) (max_idle_seconds : Int) :
    Nat × SandboxManager :=
  let expired :=
    (m.sandboxes.filter (fun p => now - p.2.last_activity > max_idle_seconds)).map
      (fun p => p.1)
  (expired.length, expired.foldl destroy_sandbox m)

/-- Test fixture: a rule whose pattern matches every command. -/
def mkTestRule (nm : String) (act : PolicyAction) (sev : String) : PolicyRule :=
  { name := nm, description := "test rule", pattern := "p", action := act
    severity := sev, matchesCmd := fun _ => true }

/-- Test fixture: a `re.compile` oracle on which only the pattern `(` is
an invalid regex. -/
def testCompile : String → Option (String → Bool) :=
  fun p => if p = "(" then none else some (fun _ => false)

/-- Test fixture: a well-formed rules-array entry. -/
def goodEntry (nm : String) : RuleData :=
  { name := some nm, description := some "d", pattern := some "x"
    action := some "block" }

/-- Test fixture: a rules-array entry with an invalid regex pattern. -/
def badRegexEntry : RuleData :=
  { name := some "bad", description := some "d", pattern := some "("
    action := some "block" }

/-- Test fixture: a rules-array entry missing the required `name` field. -/
def missingNameEntry : RuleData :=
  { name := none, description := some "d", pattern := some "x"
    action := some "block" }

/-- Test fixture: a rule whose pattern matches no command. -/
def mkNoMatchRule (nm : String) : PolicyRule :=
  { name := nm, description := "test rule", pattern := "p"
    action := PolicyAction.block, severity := "high", matchesCmd := fun _ => false }

/-- Test fixture: a registered sandbox with a given id and activity time. -/
def mkTestSandbox (sid : String) (act : Int) : Sandbox :=
  { id := sid, configRef := 0, created_at := act, last_activity := act }

/-- Test fixture: a heap whose every reference holds the same config. -/
def constHeap (c : SandboxConfig) : ConfigHeap :=
  fun _ => c

/-- Test fixture: a subprocess oracle on which every command exceeds
every timeout. -/
def alwaysTimeout : String → Int → SysOutcome :=
  fun _ _ => .timeoutExpired

/-- Test fixture: external inputs for one `create_sandbox` call. -/
def testEnv : CreateEnv :=
  { freshUserId := "fresh-uuid", idSuffix := "abcd1234", now := 100
    dockerCreate := .ok "cid" }

/-- Test fixture: a chroot-backed manager with no registered sandbox. -/
def emptyChrootManager : SandboxManager where
  backend := "chroot"
  sandboxes := []

/-- Test fixture: a chroot-backed manager with two sandboxes, one idle
since time 0 and one active at time 90. -/
def twoSandboxManager : SandboxManager where
  backend := "chroot"
  sandboxes := [("a", mkTestSandbox "a" 0), ("b", mkTestSandbox "b" 90)]

/-- Test fixture: a k8s-backed manager with one registered sandbox. -/
def k8sManager : SandboxManager where
  backend := "k8s"
  sandboxes := [("s", mkTestSandbox "s" 0)]

/-- Test fixture: a chroot-backed manager with two registered sandboxes. -/
def chrootManager : SandboxManager where
  backend := "chroot"
  sandboxes := [("s", mkTestSandbox "s" 0), ("o", mkTestSandbox "o" 7)]

/-- Test fixture: engine with a low-severity rule inserted before a
critical one, both matching every command. -/
def engineLowCrit : PolicyEngine where
  rules := [mkTestRule "rlow" PolicyAction.allow "low",
    mkTestRule "rcrit" PolicyAction.block "critical"]
  use_opa := false
  opa_available := false

/-- Test fixture: engine with a single always-matching rule. -/
def engineOneMatch : PolicyEngine where
  rules := [mkTestRule "m" PolicyAction.block "high"]
  use_opa := false
  opa_available := false

theorem evalLoop_rule (command : String) (context : Ctx) (l : List PolicyRule) :
    (evalLoop command context l).rule = l.find? (fun r => r.matchesCmd command) := by
  induction l with
  | nil => rfl
  | cons r rest ih =>
    by_cases h : r.matchesCmd command = true
    · simp [evalLoop, h, List.find?, matchedResult]
    · simp only [Bool.not_eq_true] at h
      simp [evalLoop, h, List.find?, ih]

theorem orderedInsert_ruleLE_eq (a : PolicyRule) (l : List PolicyRule) :
    List.orderedInsert ruleLE a l
      = l.takeWhile (fun b => decide (severityRank b.severity < severityRank a.severity))
        ++ a :: l.dropWhile
            (fun b => decide (severityRank b.severity < severityRank a.severity)) := by
  induction l with
  | nil => simp [List.orderedInsert]
  | cons b t ih =>
    by_cases h : ruleLE a b
    · have hb : ¬ (severityRank b.severity < severityRank a.severity) := by
        unfold ruleLE at h; omega
      simp [List.orderedInsert, h, List.takeWhile_cons, List.dropWhile_cons, hb]
    · have hb : severityRank b.severity < severityRank a.severity := by
        unfold ruleLE at h; omega
      simp [List.orderedInsert, h, List.takeWhile_cons, List.dropWhile_cons, hb, ih]

theorem mem_severityBucket {k : Nat} {rules : List PolicyRule} {r : PolicyRule}
    (h : r ∈ severityBucket k rules) : severityRank r.severity = k := by
  unfold severityBucket at h
  have := (List.mem_filter.mp h).2
  simpa using this

theorem takeWhile_append_all {α : Type} (p : α → Bool) {xs : List α} (ys : List α)
    (h : ∀ x ∈ xs, p x = true) :
    (xs ++ ys).takeWhile p = xs ++ ys.takeWhile p := by
  induction xs with
  | nil => simp
  | cons x t ih =>
    have hx : p x = true := h x (by simp)
    simp only [List.cons_append, List.takeWhile_cons, hx, if_true]
    rw [ih (fun y hy => h y (by simp [hy]))]

theorem dropWhile_append_all {α : Type} (p : α → Bool) {xs : List α} (ys : List α)
    (h : ∀ x ∈ xs, p x = true) :
    (xs ++ ys).dropWhile p = ys.dropWhile p := by
  induction xs with
  | nil => simp
  | cons x t ih =>
    have hx : p x = true := h x (by simp)
    simp only [List.cons_append, List.dropWhile_cons, hx, if_true]
    exact ih (fun y hy => h y (by simp [hy]))

theorem takeWhile_eq_nil_all {α : Type} (p : α → Bool) {ys : List α}
    (h : ∀ x ∈ ys, p x = false) : ys.takeWhile p = [] := by
  cases ys with
  | nil => rfl
  | cons y t =>
    have hy : p y = false := h y (by simp)
    simp [List.takeWhile_cons, hy]

theorem dropWhile_eq_self_all {α : Type} (p : α → Bool) {ys : List α}
    (h : ∀ x ∈ ys, p x = false) : ys.dropWhile p = ys := by
  cases ys with
  | nil => rfl
  | cons y t =>
    have hy : p y = false := h y (by simp)
    simp [List.dropWhile_cons, hy]

theorem severityBucket_cons (k : Nat) (a : PolicyRule) (l : List PolicyRule) :
    severityBucket k (a :: l)
      = if severityRank a.severity = k then a :: severityBucket k l
        else severityBucket k l := by
  by_cases h : severityRank a.severity = k <;> simp [severityBucket, List.filter_cons, h]

theorem severityRank_cases (s : String) :
    severityRank s = 0 ∨ severityRank s = 1 ∨ severityRank s = 2
      ∨ severityRank s = 3 ∨ severityRank s = 4 := by
  unfold severityRank; split_ifs <;> omega

theorem all_append {α : Type} {p : α → Bool} {b : Bool} {xs ys : List α}
    (hx : ∀ x ∈ xs, p x = b) (hy : ∀ x ∈ ys, p x = b) :
    ∀ x ∈ xs ++ ys, p x = b := by
  intro x hmem
  rcases List.mem_append.mp hmem with h | h
  · exact hx x h
  · exact hy x h

theorem bucket_p_true {a : PolicyRule} {k : Nat} {l : List PolicyRule}
    (hk : k < severityRank a.severity) :
    ∀ x ∈ severityBucket k l,
      (fun b => decide (severityRank b.severity < severityRank a.severity)) x = true := by
  intro x hx
  have h := mem_severityBucket hx
  simp only [decide_eq_true_eq]
  omega

theorem bucket_p_false {a : PolicyRule} {k : Nat} {l : List PolicyRule}
    (hk : severityRank a.severity ≤ k) :
    ∀ x ∈ severityBucket k l,
      (fun b => decide (severityRank b.severity < severityRank a.severity)) x = false := by
  intro x hx
  have h := mem_severityBucket hx
  simp only [decide_eq_false_iff_not]
  omega

theorem orderedInsert_severitySortedSpec (a : PolicyRule) (l : List PolicyRule) :
    List.orderedInsert ruleLE a (severitySortedSpec l) = severitySortedSpec (a :: l) := by
  rw [orderedInsert_ruleLE_eq]
  unfold severitySortedSpec
  simp only [List.append_assoc]
  rcases severityRank_cases a.severity with hj | hj | hj | hj | hj
  · have hfalse : ∀ x ∈ severityBucket 0 l ++ (severityBucket 1 l ++ (severityBucket 2 l
        ++ (severityBucket 3 l ++ severityBucket 4 l))),
        (fun b => decide (severityRank b.severity < severityRank a.severity)) x = false :=
      all_append (bucket_p_false (k := 0) (by omega)) (all_append
        (bucket_p_false (k := 1) (by omega)) (all_append (bucket_p_false (k := 2) (by omega))
          (all_append (bucket_p_false (k := 3) (by omega))
            (bucket_p_false (k := 4) (by omega)))))
    rw [takeWhile_eq_nil_all _ hfalse, dropWhile_eq_self_all _ hfalse]
    simp [severityBucket_cons, hj, List.append_assoc]
  · rw [takeWhile_append_all _ _ (bucket_p_true (k := 0) (by omega)),
        dropWhile_append_all _ _ (bucket_p_true (k := 0) (by omega))]
    have hfalse : ∀ x ∈ severityBucket 1 l ++ (severityBucket 2 l
        ++ (severityBucket 3 l ++ severityBucket 4 l)),
        (fun b => decide (severityRank b.severity < severityRank a.severity)) x = false :=
      all_append (bucket_p_false (k := 1) (by omega)) (all_append
        (bucket_p_false (k := 2) (by omega)) (all_append (bucket_p_false (k := 3) (by omega))
          (bucket_p_false (k := 4) (by omega))))
    rw [takeWhile_eq_nil_all _ hfalse, dropWhile_eq_self_all _ hfalse]
    simp [severityBucket_cons, hj, List.append_assoc]
  · rw [takeWhile_append_all _ _ (bucket_p_true (k := 0) (by omega)),
        dropWhile_append_all _ _ (bucket_p_true (k := 0) (by omega)),
        takeWhile_append_all _ _ (bucket_p_true (k := 1) (by omega)),
        dropWhile_append_all _ _ (bucket_p_true (k := 1) (by omega))]
    have hfalse : ∀ x ∈ severityBucket 2 l ++ (severityBucket 3 l ++ severityBucket 4 l),
        (fun b => decide (severityRank b.severity < severityRank a.severity)) x = false :=
      all_append (bucket_p_false (k := 2) (by omega)) (all_append
        (bucket_p_false (k := 3) (by omega)) (bucket_p_false (k := 4) (by omega)))
    rw [takeWhile_eq_nil_all _ hfalse, dropWhile_eq_self_all _ hfalse]
    simp [severityBucket_cons, hj, List.append_assoc]
  · rw [takeWhile_append_all _ _ (bucket_p_true (k := 0) (by omega)),
        dropWhile_append_all _ _ (bucket_p_true (k := 0) (by omega)),
        takeWhile_append_all _ _ (bucket_p_true (k := 1) (by omega)),
        dropWhile_append_all _ _ (bucket_p_true (k := 1) (by omega)),
        takeWhile_append_all _ _ (bucket_p_true (k := 2) (by omega)),
        dropWhile_append_all _ _ (bucket_p_true (k := 2) (by omega))]
    have hfalse : ∀ x ∈ severityBucket 3 l ++ severityBucket 4 l,
        (fun b => decide (severityRank b.severity < severityRank a.severity)) x = false :=
      all_append (bucket_p_false (k := 3) (by omega)) (bucket_p_false (k := 4) (by omega))
    rw [takeWhile_eq_nil_all _ hfalse, dropWhile_eq_self_all _ hfalse]
    simp [severityBucket_cons, hj, List.append_assoc]
  · rw [takeWhile_append_all _ _ (bucket_p_true (k := 0) (by omega)),
        dropWhile_append_all _ _ (bucket_p_true (k := 0) (by omega)),
        takeWhile_append_all _ _ (bucket_p_true (k := 1) (by omega)),
        dropWhile_append_all _ _ (bucket_p_true (k := 1) (by omega)),
        takeWhile_append_all _ _ (bucket_p_true (k := 2) (by omega)),
        dropWhile_append_all _ _ (bucket_p_true (k := 2) (by omega)),
        takeWhile_append_all _ _ (bucket_p_true (k := 3) (by omega)),
        dropWhile_append_all _ _ (bucket_p_true (k := 3) (by omega))]
    have hfalse : ∀ x ∈ severityBucket 4 l,
        (fun b => decide (severityRank b.severity < severityRank a.severity)) x = false :=
      bucket_p_false (k := 4) (by omega)
    rw [takeWhile_eq_nil_all _ hfalse, dropWhile_eq_self_all _ hfalse]
    simp [severityBucket_cons, hj, List.append_assoc]

theorem sortedBySeverity_eq_spec (rules : List PolicyRule) :
    sortedBySeverity rules = severitySortedSpec rules := by
  induction rules with
  | nil => rfl
  | cons a l ih =>
    have h : sortedBySeverity (a :: l) = List.orderedInsert ruleLE a (sortedBySeverity l) :=
      rfl
    rw [h, ih, orderedInsert_severitySortedSpec]

theorem sortedBySeverity_sorted (rules : List PolicyRule) :
    List.Sorted ruleLE (sortedBySeverity rules) :=
  List.sorted_insertionSort ruleLE rules

theorem find?_sorted_rank_le {p : PolicyRule → Bool} {s : List PolicyRule}
    (hs : List.Sorted ruleLE s) {r1 : PolicyRule} (hmem : r1 ∈ s) (hp : p r1 = true) :
    ∃ r, s.find? p = some r ∧ severityRank r.severity ≤ severityRank r1.severity := by
  induction s with
  | nil => cases hmem
  | cons a t ih =>
    rcases List.sorted_cons.mp hs with ⟨hhead, htail⟩
    by_cases ha : p a = true
    · refine ⟨a, by simp [List.find?, ha], ?_⟩
      rcases List.mem_cons.mp hmem with h | h
      · subst h; exact Nat.le_refl _
      · exact hhead r1 h
    · have hne : r1 ≠ a := fun h => ha (h ▸ hp)
      have hmem' : r1 ∈ t := by
        rcases List.mem_cons.mp hmem with h | h
        · exact absurd h hne
        · exact h
      have hfind : (a :: t).find? p = t.find? p := by
        simp only [Bool.not_eq_true] at ha
        simp [List.find?, ha]
      rw [hfind]
      exact ih htail hmem'

theorem severityRank_le_three_iff (s : String) :
    severityRank s ≤ 3 ↔ severityRecognized s := by
  unfold severityRank severityRecognized
  split_ifs with h1 h2 h3 h4 <;> simp_all

theorem evaluate_local_rule_mem {rules : List PolicyRule} {cmd : String} {ctx : Ctx}
    {r : PolicyRule} (h : (evaluate_local rules cmd ctx).rule = some r) :
    r ∈ rules ∧ r.matchesCmd cmd = true := by
  rw [evaluate_local, evalLoop_rule] at h
  have hp := List.find?_some h
  refine ⟨?_, by simpa using hp⟩
  have hmem := List.mem_of_find?_eq_some h
  exact (List.mem_insertionSort ruleLE).mp hmem

theorem evaluate_rule_mem {engine : PolicyEngine} {cmd : String} {ctx : Ctx}
    {resp : OpaResponse} {r : PolicyRule}
    (h : (evaluate engine cmd ctx resp).rule = some r) :
    r ∈ engine.rules ∧ r.matchesCmd cmd = true := by
  unfold evaluate at h
  by_cases hflag : (engine.use_opa && engine.opa_available) = true
  · rw [if_pos hflag] at h
    cases resp with
    | networkError msg => simp [evaluate_opa, opaFailureResult] at h
    | httpResponse status body =>
      by_cases hst : status = 200
      · cases body with
        | malformed => simp [evaluate_opa, hst, opaFailureResult] at h
        | obj result? => simp [evaluate_opa, hst] at h
      · simp only [evaluate_opa, if_neg hst] at h
        exact evaluate_local_rule_mem h
  · rw [if_neg hflag] at h
    exact evaluate_local_rule_mem h

theorem find?_map_replace (d : List (String × Sandbox)) (k : String) (v : Sandbox)
    (h : d.any (fun p => p.1 == k) = true) :
    (d.map (fun p => if p.1 == k then (k, v) else p)).find? (fun p => p.1 == k)
      = some (k, v) := by
  induction d with
  | nil => simp at h
  | cons q t ih =>
    by_cases hq : q.1 = k
    · have hfq : (if q.1 == k then (k, v) else q) = (k, v) := by simp [hq]
      rw [List.map_cons, hfq]
      exact List.find?_cons_of_pos _ (by simp)
    · have hq' : (q.1 == k) = false := by simp [hq]
      have h' : t.any (fun p => p.1 == k) = true := by
        simpa [List.any_cons, hq'] using h
      have hfq : (if q.1 == k then (k, v) else q) = q := by simp [hq']
      rw [List.map_cons, hfq, List.find?_cons_of_neg _ (by simp [hq'])]
      exact ih h'

theorem find?_append_new (d : List (String × Sandbox)) (k : String) (v : Sandbox)
    (h : d.any (fun p => p.1 == k) = false) :
    (d ++ [(k, v)]).find? (fun p => p.1 == k) = some (k, v) := by
  induction d with
  | nil => exact List.find?_cons_of_pos _ (by simp)
  | cons q t ih =>
    have hq : (q.1 == k) = false := by
      by_contra hq
      simp only [Bool.not_eq_false] at hq
      simp [List.any_cons, hq] at h
    have h' : t.any (fun p => p.1 == k) = false := by
      simpa [List.any_cons, hq] using h
    rw [List.cons_append, List.find?_cons_of_neg _ (by simp [hq])]
    exact ih h'

theorem dictGet_dictSet_same (d : List (String × Sandbox)) (k : String) (v : Sandbox) :
    dictGet (dictSet d k v) k = some v := by
  unfold dictGet dictSet
  by_cases h : d.any (fun p => p.1 == k) = true
  · rw [if_pos h, find?_map_replace d k v h]
    rfl
  · have h' : d.any (fun p => p.1 == k) = false := Bool.eq_false_iff.mpr h
    rw [if_neg h, find?_append_new d k v h']
    rfl

theorem find?_map_replace_other (d : List (String × Sandbox)) (k k' : String)
    (v : Sandbox) (h : k' ≠ k) :
    (d.map (fun p => if p.1 == k then (k, v) else p)).find? (fun p => p.1 == k')
      = d.find? (fun p => p.1 == k') := by
  induction d with
  | nil => rfl
  | cons q t ih =>
    by_cases hq : q.1 = k
    · have hk : (k == k') = false := beq_eq_false_iff_ne.mpr (Ne.symm h)
      have hq2 : (q.1 == k') = false := by rw [hq]; exact hk
      have hfq : (if q.1 == k then (k, v) else q) = (k, v) := by simp [hq]
      rw [List.map_cons, hfq, List.find?_cons_of_neg _ (by simp [hk]),
          List.find?_cons_of_neg _ (by simp [hq2])]
      exact ih
    · have hq' : (q.1 == k) = false := by simp [hq]
      have hfq : (if q.1 == k then (k, v) else q) = q := by simp [hq']
      by_cases hq2 : q.1 = k'
      · rw [List.map_cons, hfq, List.find?_cons_of_pos _ (by simp [hq2]),
            List.find?_cons_of_pos _ (by simp [hq2])]
      · have hq2' : (q.1 == k') = false := by simp [hq2]
        rw [List.map_cons, hfq, List.find?_cons_of_neg _ (by simp [hq2']),
            List.find?_cons_of_neg _ (by simp [hq2'])]
        exact ih

theorem find?_append_other (d : List (String × Sandbox)) (k k' : String) (v : Sandbox)
    (h : k' ≠ k) :
    (d ++ [(k, v)]).find? (fun p => p.1 == k') = d.find? (fun p => p.1 == k') := by
  induction d with
  | nil =>
    have hk : (k == k') = false := beq_eq_false_iff_ne.mpr (Ne.symm h)
    simp only [List.nil_append]
    rw [List.find?_cons_of_neg _ (by simp [hk])]
  | cons q t ih =>
    by_cases hq : q.1 = k'
    · rw [List.cons_append, List.find?_cons_of_pos _ (by simp [hq]),
          List.find?_cons_of_pos _ (by simp [hq])]
    · have hq' : (q.1 == k') = false := by simp [hq]
      rw [List.cons_append, List.find?_cons_of_neg _ (by simp [hq']),
          List.find?_cons_of_neg _ (by simp [hq'])]
      exact ih

theorem dictGet_dictSet_other (d : List (String × Sandbox)) (k k' : String) (v : Sandbox)
    (h : k' ≠ k) : dictGet (dictSet d k v) k' = dictGet d k' := by
  unfold dictGet dictSet
  by_cases hany : d.any (fun p => p.1 == k) = true
  · rw [if_pos hany, find?_map_replace_other d k k' v h]
  · rw [if_neg hany, find?_append_other d k k' v h]

theorem destroy_sandbox_sandboxes (m : SandboxManager) (k : String) :
    (destroy_sandbox m k).sandboxes = m.sandboxes.filter (fun p => !(p.1 == k)) := by
  unfold destroy_sandbox
  cases hfind : dictGet m.sandboxes k with
  | none =>
    unfold dictGet at hfind
    have hnone : m.sandboxes.find? (fun p => p.1 == k) = none := by
      cases hf2 : m.sandboxes.find? (fun p => p.1 == k) with
      | none => rfl
      | some q => rw [hf2] at hfind; simp at hfind
    have hall := List.find?_eq_none.mp hnone
    symm
    rw [List.filter_eq_self]
    intro a ha
    have := hall a ha
    simp_all
  | some sb => rfl

theorem foldl_destroy_sandboxes (ks : List String) : ∀ (m : SandboxManager),
    (ks.foldl destroy_sandbox m).sandboxes
      = m.sandboxes.filter (fun p => !(ks.any (fun k => p.1 == k))) := by
  induction ks with
  | nil =>
    intro m
    simp [List.foldl]
  | cons k t ih =>
    intro m
    rw [List.foldl_cons, ih, destroy_sandbox_sandboxes, List.filter_filter]
    apply List.filter_congr
    intro a _
    simp only [List.any_cons, Bool.not_or]
    rw [Bool.and_comm]

theorem evalLoop_eq (command : String) (context : Ctx) (l : List PolicyRule) :
    evalLoop command context l
      = match l.find? (fun r => r.matchesCmd command) with
        | some r => matchedResult r command context
        | none => defaultAllowResult command context := by
  induction l with
  | nil => rfl
  | cons r rest ih =>
    by_cases h : r.matchesCmd command = true
    · rw [List.find?_cons_of_pos _ (by simpa using h)]
      simp [evalLoop, h]
    · have h' : r.matchesCmd command = false := Bool.eq_false_iff.mpr h
      rw [List.find?_cons_of_neg _ (by simp [h'])]
      simp [evalLoop, h', ih]

/-- C1 (code bug): with the engine configured for OPA and the service
cached as reachable, an exception during the remote query — network
failure, or a malformed body of a 200 response — makes `evaluate` return
a synthesized Block result instead of the local evaluation result; only
the non-200-status path falls back to local evaluation. The source
comment on the exception branch says `Fall back to local evaluation on
OPA error`, but the branch returns the Block result. -/
theorem opa_exception_block_not_local :
    (evaluate { rules := [], use_opa := true, opa_available := true } "ls" []
        (.networkError "connection refused")).action = PolicyAction.block
      ∧ (evaluate_local [] "ls" []).action = PolicyAction.allow
      ∧ evaluate { rules := [], use_opa := true, opa_available := true } "ls" []
          (.networkError "connection refused") ≠ evaluate_local [] "ls" []
      ∧ (evaluate { rules := [], use_opa := true, opa_available := true } "ls" []
          (.httpResponse 200 .malformed)).action = PolicyAction.block
      ∧ evaluate { rules := [], use_opa := true, opa_available := true } "ls" []
          (.httpResponse 500 .malformed) = evaluate_local [] "ls" [] := by
  refine ⟨rfl, rfl, ?_, rfl, ?_⟩
  · intro h
    exact absurd (congrArg PolicyResult.action h) (by decide)
  · show evaluate_opa [] "ls" [] (.httpResponse 500 .malformed) = evaluate_local [] "ls" []
    simp [evaluate_opa]

/-- C2: local evaluation returns the first matching rule of the stable
severity-rank sort (critical, high, medium, low order, original order
preserved inside a rank); in particular a matching critical rule beats a
matching low rule in either insertion order. -/
theorem evaluate_local_first_match_by_severity
    (rules : List PolicyRule) (command : String) (context : Ctx)
    (R1 R2 : PolicyRule)
    (h1 : R1.severity = "critical") (h2 : R2.severity = "low")
    (hm1 : R1.matchesCmd command = true) (hm2 : R2.matchesCmd command = true) :
    (evaluate_local rules command context).rule
        = (severitySortedSpec rules).find? (fun r => r.matchesCmd command)
      ∧ (evaluate_local [R1, R2] command context).action = R1.action
      ∧ (evaluate_local [R2, R1] command context).action = R1.action := by
  have hr1 : severityRank R1.severity = 0 := by rw [h1]; rfl
  have hr2 : severityRank R2.severity = 3 := by rw [h2]; rfl
  have hle : ruleLE R1 R2 := by unfold ruleLE; omega
  have hnle : ¬ ruleLE R2 R1 := by unfold ruleLE; omega
  have hs1 : sortedBySeverity [R1, R2] = [R1, R2] := by
    simp [sortedBySeverity, List.insertionSort, List.orderedInsert, hle]
  have hs2 : sortedBySeverity [R2, R1] = [R1, R2] := by
    simp [sortedBySeverity, List.insertionSort, List.orderedInsert, hnle]
  refine ⟨?_, ?_, ?_⟩
  · rw [evaluate_local, evalLoop_rule, sortedBySeverity_eq_spec]
  · rw [evaluate_local, hs1]
    simp [evalLoop, hm1, matchedResult]
  · rw [evaluate_local, hs2]
    simp [evalLoop, hm1, matchedResult]

theorem evaluate_local_first_match_by_severity_witness :
    (evaluate_local [mkTestRule "r1" PolicyAction.block "critical",
          mkTestRule "r2" PolicyAction.allow "low"] "cmd" []).rule
        = (severitySortedSpec [mkTestRule "r1" PolicyAction.block "critical",
            mkTestRule "r2" PolicyAction.allow "low"]).find?
            (fun r => r.matchesCmd "cmd")
      ∧ (evaluate_local [mkTestRule "r1" PolicyAction.block "critical",
            mkTestRule "r2" PolicyAction.allow "low"] "cmd" []).action
          = (mkTestRule "r1" PolicyAction.block "critical").action
      ∧ (evaluate_local [mkTestRule "r2" PolicyAction.allow "low",
            mkTestRule "r1" PolicyAction.block "critical"] "cmd" []).action
          = (mkTestRule "r1" PolicyAction.block "critical").action :=
  evaluate_local_first_match_by_severity
    [mkTestRule "r1" PolicyAction.block "critical",
      mkTestRule "r2" PolicyAction.allow "low"] "cmd" []
    (mkTestRule "r1" PolicyAction.block "critical")
    (mkTestRule "r2" PolicyAction.allow "low") rfl rfl rfl rfl

/-- C6: on the local path, `allowed` is true exactly for a matched action
in Allow, Log, Confirm and false exactly for Block; `requires_confirmation`
holds exactly for Confirm; and with no matching rule the verdict is
allowed, action Allow, no matched rule. -/
theorem evaluate_local_allowed_semantics
    (rules : List PolicyRule) (command : String) (context : Ctx) :
    (∀ r, (evaluate_local rules command context).rule = some r →
        ((evaluate_local rules command context).allowed = true
            ↔ (r.action = PolicyAction.allow ∨ r.action = PolicyAction.log
                ∨ r.action = PolicyAction.confirm))
          ∧ ((evaluate_local rules command context).allowed = false
              ↔ r.action = PolicyAction.block)
          ∧ (evaluate_local rules command context).action = r.action)
      ∧ ((evaluate_local rules command context).requires_confirmation = true
          ↔ (evaluate_local rules command context).action = PolicyAction.confirm)
      ∧ ((∀ r ∈ rules, r.matchesCmd command = false) →
          (evaluate_local rules command context).allowed = true
            ∧ (evaluate_local rules command context).action = PolicyAction.allow
            ∧ (evaluate_local rules command context).rule = none) := by
  cases hfind : (sortedBySeverity rules).find? (fun r => r.matchesCmd command) with
  | none =>
    have hE : evaluate_local rules command context = defaultAllowResult command context := by
      rw [evaluate_local, evalLoop_eq, hfind]
    refine ⟨?_, ?_, ?_⟩
    · intro r hr
      rw [hE] at hr
      simp [defaultAllowResult] at hr
    · rw [hE]
      simp [defaultAllowResult, PolicyResult.requires_confirmation]
    · intro _
      rw [hE]
      exact ⟨rfl, rfl, rfl⟩
  | some r' =>
    have hE : evaluate_local rules command context = matchedResult r' command context := by
      rw [evaluate_local, evalLoop_eq, hfind]
    refine ⟨?_, ?_, ?_⟩
    · intro r hr
      rw [hE] at hr
      have hrr : r' = r := by simpa [matchedResult] using hr
      subst hrr
      rw [hE]
      refine ⟨?_, ?_, rfl⟩ <;> cases hact : r'.action <;> simp [matchedResult, hact]
    · rw [hE]
      simp [matchedResult, PolicyResult.requires_confirmation]
    · intro hnone
      have hmem := (List.mem_insertionSort ruleLE).mp (List.mem_of_find?_eq_some hfind)
      have hp := List.find?_some hfind
      have := hnone r' hmem
      simp_all

theorem evaluate_local_allowed_semantics_witness :
    (evaluate_local [mkTestRule "r" PolicyAction.block "high"] "c" []).allowed = false
      ∧ (evaluate_local [mkNoMatchRule "n"] "c" []).action = PolicyAction.allow :=
  ⟨((evaluate_local_allowed_semantics [mkTestRule "r" PolicyAction.block "high"] "c"
        []).1 (mkTestRule "r" PolicyAction.block "high") rfl).2.1.mpr rfl,
    ((evaluate_local_allowed_semantics [mkNoMatchRule "n"] "c" []).2.2
      (by intro r hr; rw [List.mem_singleton.mp hr]; rfl)).2.1⟩

/-- C9: a severity outside the rank table gets rank 4, below every
recognized severity, so when a rule with recognized severity matches, the
returned rule always has a recognized severity, regardless of insertion
order. -/
theorem unrecognized_severity_ranked_last
    (rules : List PolicyRule) (command : String) (context : Ctx)
    (R1 R2 : PolicyRule) (h1mem : R1 ∈ rules)
    (h1rec : severityRecognized R1.severity)
    (h2unrec : ¬ severityRecognized R2.severity)
    (hm1 : R1.matchesCmd command = true) :
    severityRank R2.severity = 4
      ∧ ∃ r, (evaluate_local rules command context).rule = some r
          ∧ severityRecognized r.severity := by
  constructor
  · have h4 : ¬ severityRank R2.severity ≤ 3 :=
      fun hle => h2unrec ((severityRank_le_three_iff _).mp hle)
    rcases severityRank_cases R2.severity with h | h | h | h | h <;> omega
  · have hsorted := sortedBySeverity_sorted rules
    have h1mem' : R1 ∈ sortedBySeverity rules := (List.mem_insertionSort ruleLE).mpr h1mem
    obtain ⟨r, hfind, hrank⟩ :=
      find?_sorted_rank_le (p := fun r => r.matchesCmd command) hsorted h1mem' hm1
    refine ⟨r, ?_, ?_⟩
    · rw [evaluate_local, evalLoop_rule]
      exact hfind
    · have hr1 : severityRank R1.severity ≤ 3 := (severityRank_le_three_iff _).mpr h1rec
      exact (severityRank_le_three_iff _).mp (le_trans hrank hr1)

theorem unrecognized_severity_ranked_last_witness :
    severityRank (mkTestRule "u" PolicyAction.allow "urgent").severity = 4
      ∧ ∃ r, (evaluate_local [mkTestRule "u" PolicyAction.allow "urgent",
            mkTestRule "r" PolicyAction.block "low"] "c" []).rule = some r
          ∧ severityRecognized r.severity :=
  unrecognized_severity_ranked_last
    [mkTestRule "u" PolicyAction.allow "urgent", mkTestRule "r" PolicyAction.block "low"]
    "c" [] (mkTestRule "r" PolicyAction.block "low")
    (mkTestRule "u" PolicyAction.allow "urgent")
    (by simp [mkTestRule]) (by decide) (by decide) rfl

theorem filter_head?_eq_find? {α : Type} (p : α → Bool) (l : List α) :
    (l.filter p).head? = l.find? p := by
  induction l with
  | nil => rfl
  | cons a t ih =>
    by_cases h : p a = true
    · rw [List.filter_cons_of_pos h, List.find?_cons_of_pos _ h]
      rfl
    · have h' : p a = false := Bool.eq_false_iff.mpr h
      rw [List.filter_cons_of_neg (by simp [h']), List.find?_cons_of_neg _ (by simp [h'])]
      exact ih

/-- C3 counterexample: with rules inserted as [low-severity, critical],
both matching, `evaluate` reports the critical rule (first in severity
order) while the first element of `dry_run`'s `all_matching_rules` is the
low-severity rule (first in insertion order), so the first element does
not correspond to the matched rule. -/
theorem dry_run_head_mismatch_counterexample :
    (dry_run engineLowCrit "c" [] (.networkError "")).rule_matched = some "rcrit"
      ∧ ((dry_run engineLowCrit "c" [] (.networkError "")).all_matching_rules.head?.map
          (fun s => s.name)) = some "rlow"
      ∧ ((dry_run engineLowCrit "c" [] (.networkError "")).all_matching_rules.head?.map
          (fun s => s.name))
          ≠ (dry_run engineLowCrit "c" [] (.networkError "")).rule_matched := by
  refine ⟨?_, ?_, ?_⟩ <;> decide

/-- C3 (amended): whenever `evaluate` reports a matched rule, `dry_run`'s
`all_matching_rules` has length at least 1, contains the matched rule's
summary, and contains a summary for every rule matching the command; its
first element is the first matching rule in insertion order, which is not
in general the matched rule (that one is first in severity order). -/
theorem dry_run_reports_all_matching_rules
    (engine : PolicyEngine) (command : String) (context : Ctx) (resp : OpaResponse)
    (r : PolicyRule) (h : (evaluate engine command context resp).rule = some r) :
    1 ≤ (dry_run engine command context resp).all_matching_rules.length
      ∧ summarize r ∈ (dry_run engine command context resp).all_matching_rules
      ∧ (∀ r2 ∈ engine.rules, r2.matchesCmd command = true →
          summarize r2 ∈ (dry_run engine command context resp).all_matching_rules)
      ∧ (dry_run engine command context resp).all_matching_rules.head?
          = (engine.rules.find? (fun r2 => r2.matchesCmd command)).map summarize := by
  obtain ⟨hmem, hmatch⟩ := evaluate_rule_mem h
  have hin : summarize r ∈ (dry_run engine command context resp).all_matching_rules := by
    simp only [dry_run]
    exact List.mem_map_of_mem summarize (List.mem_filter.mpr ⟨hmem, by simpa using hmatch⟩)
  refine ⟨List.length_pos_of_mem hin, hin, ?_, ?_⟩
  · intro r2 hr2 hm2
    simp only [dry_run]
    exact List.mem_map_of_mem summarize (List.mem_filter.mpr ⟨hr2, by simpa using hm2⟩)
  · simp only [dry_run]
    rw [List.head?_map, filter_head?_eq_find?]

theorem dry_run_reports_all_matching_rules_witness :
    1 ≤ (dry_run engineOneMatch "c" [] (.networkError "")).all_matching_rules.length
      ∧ summarize (mkTestRule "m" PolicyAction.block "high")
          ∈ (dry_run engineOneMatch "c" [] (.networkError "")).all_matching_rules
      ∧ (∀ r2 ∈ engineOneMatch.rules, r2.matchesCmd "c" = true →
          summarize r2 ∈ (dry_run engineOneMatch "c" []
            (.networkError "")).all_matching_rules)
      ∧ (dry_run engineOneMatch "c" [] (.networkError "")).all_matching_rules.head?
          = (engineOneMatch.rules.find? (fun r2 => r2.matchesCmd "c")).map summarize :=
  dry_run_reports_all_matching_rules engineOneMatch "c" [] (.networkError "")
    (mkTestRule "m" PolicyAction.block "high") rfl

theorem loadLoop_all_ok (compile : String → Option (String → Bool)) :
    ∀ (es : List RuleData) (acc : List PolicyRule),
      (∀ x ∈ es, (parseEntry compile x).isOk = true) →
      loadLoop compile es acc = .ok (acc ++ parsedRules compile es) false := by
  intro es
  induction es with
  | nil =>
    intro acc _
    simp [loadLoop, parsedRules]
  | cons e rest ih =>
    intro acc hok
    have he := hok e (by simp)
    cases heq : parseEntry compile e with
    | error k => rw [heq] at he; simp [Except.isOk, Except.toBool] at he
    | ok r =>
      have hrest : ∀ x ∈ rest, (parseEntry compile x).isOk = true :=
        fun x hx => hok x (by simp [hx])
      rw [show loadLoop compile (e :: rest) acc
          = loadLoop compile rest (acc ++ [r]) by simp [loadLoop, heq]]
      rw [ih (acc ++ [r]) hrest]
      simp [parsedRules, heq, List.filterMap_cons, Except.toOption]

theorem loadLoop_prefix_error (compile : String → Option (String → Bool))
    (e : RuleData) (post : List RuleData) (k : LoadErr) (he : parseEntry compile e = .error k) :
    ∀ (pre : List RuleData) (acc : List PolicyRule),
      (∀ x ∈ pre, (parseEntry compile x).isOk = true) →
      loadLoop compile (pre ++ e :: post) acc
        = if k.isCaught then .ok (acc ++ parsedRules compile pre) true else .fatal k := by
  intro pre
  induction pre with
  | nil =>
    intro acc _
    simp [loadLoop, he, parsedRules]
  | cons x rest ih =>
    intro acc hok
    have hx := hok x (by simp)
    cases heq : parseEntry compile x with
    | error k2 => rw [heq] at hx; simp [Except.isOk, Except.toBool] at hx
    | ok r =>
      have hrest : ∀ y ∈ rest, (parseEntry compile y).isOk = true :=
        fun y hy => hok y (by simp [hy])
      rw [show loadLoop compile ((x :: rest) ++ e :: post) acc
          = loadLoop compile (rest ++ e :: post) (acc ++ [r]) by simp [loadLoop, heq]]
      rw [ih (acc ++ [r]) hrest]
      simp [parsedRules, heq, List.filterMap_cons, Except.toOption]

/-- C4 counterexample: a rules array [well-formed, invalid-regex,
well-formed] makes loading escape with the uncaught `re.error` (fatal for
engine construction): loading does abort on a malformed entry, and the
later well-formed entry is not loaded. -/
theorem load_rules_invalid_regex_fatal :
    loadFile testCompile [goodEntry "a", badRegexEntry, goodEntry "b"]
        = .fatal .regexError
      ∧ ∀ rules warned,
          loadFile testCompile [goodEntry "a", badRegexEntry, goodEntry "b"]
            ≠ .ok rules warned := by
  have hfatal : loadFile testCompile [goodEntry "a", badRegexEntry, goodEntry "b"]
      = .fatal .regexError := rfl
  refine ⟨hfatal, fun rules warned h => ?_⟩
  rw [hfatal] at h
  simp at h

/-- C4 (amended): loading one policy file stops at the first malformed
entry: on a caught error kind (missing field, unknown action, bad JSON) a
warning is printed, the entries parsed before it are kept and the rest of
the file is skipped; an invalid regex raises `re.error` at
rule-construction time, which the loader does not catch, so it aborts
loading. A file of only well-formed entries loads completely with no
warning. -/
theorem load_rules_stop_at_first_malformed
    (compile : String → Option (String → Bool)) (pre : List RuleData) (e : RuleData)
    (post : List RuleData) (k : LoadErr)
    (hpre : ∀ x ∈ pre, (parseEntry compile x).isOk = true)
    (he : parseEntry compile e = .error k) :
    loadFile compile (pre ++ e :: post)
        = (if k.isCaught then .ok (parsedRules compile pre) true else .fatal k)
      ∧ (∀ es, (∀ x ∈ es, (parseEntry compile x).isOk = true) →
          loadFile compile es = .ok (parsedRules compile es) false) := by
  constructor
  · rw [loadFile, loadLoop_prefix_error compile e post k he pre [] hpre]
    simp
  · intro es hok
    rw [loadFile, loadLoop_all_ok compile es [] hok]
    simp

theorem load_rules_stop_at_first_malformed_witness :
    loadFile testCompile [goodEntry "a", missingNameEntry, goodEntry "b"]
        = .ok (parsedRules testCompile [goodEntry "a"]) true
      ∧ loadFile testCompile [goodEntry "a", goodEntry "b"]
          = .ok (parsedRules testCompile [goodEntry "a", goodEntry "b"]) false := by
  have h := load_rules_stop_at_first_malformed testCompile [goodEntry "a"]
    missingNameEntry [goodEntry "b"] LoadErr.keyError (by decide) rfl
  exact ⟨by simpa using h.1, h.2 [goodEntry "a", goodEntry "b"] (by decide)⟩

/-- C5 counterexample: cleanup_expired(max_idle_seconds=0) run at the
very moment of creation (idle time exactly 0) destroys nothing, because
the sweep uses a strict comparison `now - last_activity > max_idle`;
list_sandboxes is not empty afterwards. -/
theorem cleanup_expired_zero_idle_retained :
    ∃ m1 sb, (create_sandbox emptyChrootManager (constHeap {}) 0 (some "u") none
        testEnv).2 = .ok (m1, sb)
      ∧ cleanup_expired m1 testEnv.now 0 = (0, m1)
      ∧ list_sandboxes m1 ≠ [] := by
  refine ⟨_, _, rfl, ?_, ?_⟩ <;> decide

/-- C5 (amended): cleanup_expired destroys exactly the sandboxes whose
idle time `now - last_activity` strictly exceeds `max_idle_seconds` and
returns their number; a sandbox whose idle time is exactly
`max_idle_seconds` (in particular exactly 0 with max_idle 0) is kept. -/
theorem cleanup_expired_destroys_strictly_older
    (m : SandboxManager) (now max_idle : Int)
    (hnodup : (m.sandboxes.map Prod.fst).Nodup) :
    (cleanup_expired m now max_idle).1
        = (m.sandboxes.filter (fun p => now - p.2.last_activity > max_idle)).length
      ∧ (cleanup_expired m now max_idle).2.sandboxes
          = m.sandboxes.filter (fun p => now - p.2.last_activity ≤ max_idle) := by
  constructor
  · simp [cleanup_expired]
  · rw [show (cleanup_expired m now max_idle).2
        = ((m.sandboxes.filter (fun p => now - p.2.last_activity > max_idle)).map
            (fun p => p.1)).foldl destroy_sandbox m from rfl]
    rw [foldl_destroy_sandboxes]
    apply List.filter_congr
    intro p hp
    by_cases hq : now - p.2.last_activity > max_idle
    · have hmemf : p ∈ m.sandboxes.filter (fun pp => now - pp.2.last_activity > max_idle) :=
        List.mem_filter.mpr ⟨hp, by simpa using hq⟩
      have hany : ((m.sandboxes.filter (fun pp => now - pp.2.last_activity > max_idle)).map
          (fun pp => pp.1)).any (fun k => p.1 == k) = true :=
        List.any_eq_true.mpr ⟨p.1, List.mem_map_of_mem _ hmemf, by simp⟩
      rw [hany]
      have hle : ¬ (now - p.2.last_activity ≤ max_idle) := by omega
      simp [hle]
    · have hany : ((m.sandboxes.filter (fun pp => now - pp.2.last_activity > max_idle)).map
          (fun pp => pp.1)).any (fun k => p.1 == k) = false := by
        by_contra hc
        rw [Bool.not_eq_false] at hc
        obtain ⟨key, hkmem, hkeq⟩ := List.any_eq_true.mp hc
        obtain ⟨x, hxmem, hxfst⟩ := List.mem_map.mp hkmem
        obtain ⟨hxl, hxq⟩ := List.mem_filter.mp hxmem
        have hpx : p.1 = x.1 := by
          have := beq_iff_eq.mp hkeq
          rw [this, ← hxfst]
        have hpeq : p = x := List.inj_on_of_nodup_map hnodup hp hxl hpx
        rw [← hpeq] at hxq
        simp at hxq
        omega
      rw [hany]
      have hle : now - p.2.last_activity ≤ max_idle := by omega
      simp [hle]

theorem cleanup_expired_destroys_strictly_older_witness :
    (cleanup_expired twoSandboxManager 100 50).1
        = (twoSandboxManager.sandboxes.filter
            (fun p => (100 : Int) - p.2.last_activity > 50)).length
      ∧ (cleanup_expired twoSandboxManager 100 50).2.sandboxes
          = twoSandboxManager.sandboxes.filter
              (fun p => (100 : Int) - p.2.last_activity ≤ 50) :=
  cleanup_expired_destroys_strictly_older twoSandboxManager 100 50 (by decide)

/-- C7 counterexample: on the k8s backend, a command exceeding the
timeout (the subprocess oracle reports expiry for every timeout) still
returns exit_code 1 and timed_out false — the k8s stub ignores the
timeout entirely — contradicting the claim for every backend. -/
theorem execute_k8s_ignores_timeout :
    ∃ m' res,
      execute_in_sandbox k8sManager (constHeap {}) "s" "sleep 10" none (some 1) 5
          alwaysTimeout = .ok (m', res)
        ∧ res.exit_code = 1 ∧ res.timed_out = false
        ∧ ¬ (res.exit_code = -1 ∧ res.timed_out = true) := by
  refine ⟨_, _, rfl, ?_, ?_, ?_⟩ <;> decide

/-- C7 (amended): on every backend other than the k8s stub (docker, and
the chroot fall-through), when the subprocess run with the applied
timeout — the caller's override if nonzero, else the config timeout —
expires, execute returns the sentinel result with exit_code -1 and
timed_out true rather than raising or returning a normal exit code. -/
theorem execute_timeout_sentinel
    (m : SandboxManager) (heap : ConfigHeap) (sandbox_id command : String)
    (cwd : Option String) (timeout : Option Int) (now : Int)
    (sys : String → Int → SysOutcome) (sb : Sandbox)
    (hfound : dictGet m.sandboxes sandbox_id = some sb)
    (hb : m.backend ≠ "k8s")
    (hsys : sys command (effectiveTimeout timeout (heap sb.configRef).command_timeout)
        = .timeoutExpired) :
    ∃ m', execute_in_sandbox m heap sandbox_id command cwd timeout now sys
        = .ok (m', timeoutResult
            (effectiveTimeout timeout (heap sb.configRef).command_timeout)) := by
  have hexec : execute_in_sandbox m heap sandbox_id command cwd timeout now sys
      = .ok ({ m with sandboxes := dictSet m.sandboxes sandbox_id (bumpSandbox sb now) },
          backendDispatch m.backend (bumpSandbox sb now) command
            (effectiveTimeout timeout (heap sb.configRef).command_timeout) sys) := by
    rw [execute_in_sandbox, hfound]
  have hdisp : backendDispatch m.backend (bumpSandbox sb now) command
      (effectiveTimeout timeout (heap sb.configRef).command_timeout) sys
      = timeoutResult (effectiveTimeout timeout (heap sb.configRef).command_timeout) := by
    have hk : (m.backend == "k8s") = false := beq_eq_false_iff_ne.mpr hb
    unfold backendDispatch
    by_cases hd : (m.backend == "docker") = true
    · rw [if_pos hd]
      unfold execute_docker
      rw [hsys]
    · rw [if_neg hd, if_neg (by simp [hk])]
      unfold execute_chroot
      rw [hsys]
  exact ⟨_, by rw [hexec, hdisp]⟩

theorem execute_timeout_sentinel_witness :
    ∃ m', execute_in_sandbox chrootManager (constHeap {}) "s" "sleep 10" none (some 1)
        5 alwaysTimeout
        = .ok (m', timeoutResult (effectiveTimeout (some 1)
            ((constHeap {}) (mkTestSandbox "s" 0).configRef).command_timeout)) :=
  execute_timeout_sentinel chrootManager (constHeap {}) "s" "sleep 10" none (some 1) 5
    alwaysTimeout (mkTestSandbox "s" 0) rfl (by decide) rfl

/-- C8: an execute call on a registered sandbox updates that sandbox's
command_count (by exactly 1) and last_activity (to the call time) exactly
once, before backend dispatch (the dispatched backend already sees the
updated sandbox), for every backend and every run outcome; every other
registered sandbox is unchanged. -/
theorem execute_updates_activity_once
    (m : SandboxManager) (heap : ConfigHeap) (sandbox_id command : String)
    (cwd : Option String) (timeout : Option Int) (now : Int)
    (sys : String → Int → SysOutcome) (sb : Sandbox)
    (hfound : dictGet m.sandboxes sandbox_id = some sb) :
    ∃ m' res, execute_in_sandbox m heap sandbox_id command cwd timeout now sys
        = .ok (m', res)
      ∧ dictGet m'.sandboxes sandbox_id = some (bumpSandbox sb now)
      ∧ (bumpSandbox sb now).command_count = sb.command_count + 1
      ∧ (bumpSandbox sb now).last_activity = now
      ∧ (∀ other, other ≠ sandbox_id →
          dictGet m'.sandboxes other = dictGet m.sandboxes other)
      ∧ res = backendDispatch m.backend (bumpSandbox sb now) command
          (effectiveTimeout timeout (heap sb.configRef).command_timeout) sys := by
  have hexec : execute_in_sandbox m heap sandbox_id command cwd timeout now sys
      = .ok ({ m with sandboxes := dictSet m.sandboxes sandbox_id (bumpSandbox sb now) },
          backendDispatch m.backend (bumpSandbox sb now) command
            (effectiveTimeout timeout (heap sb.configRef).command_timeout) sys) := by
    rw [execute_in_sandbox, hfound]
  refine ⟨_, _, hexec, ?_, rfl, rfl, ?_, rfl⟩
  · exact dictGet_dictSet_same m.sandboxes sandbox_id _
  · intro other hne
    exact dictGet_dictSet_other m.sandboxes sandbox_id other _ hne

theorem execute_updates_activity_once_witness :
    ∃ m' res, execute_in_sandbox chrootManager (constHeap {}) "s" "echo hi" none none 42
        alwaysTimeout = .ok (m', res)
      ∧ dictGet m'.sandboxes "s" = some (bumpSandbox (mkTestSandbox "s" 0) 42)
      ∧ (bumpSandbox (mkTestSandbox "s" 0) 42).command_count
          = (mkTestSandbox "s" 0).command_count + 1
      ∧ (bumpSandbox (mkTestSandbox "s" 0) 42).last_activity = 42
      ∧ dictGet m'.sandboxes "o" = dictGet chrootManager.sandboxes "o"
      ∧ res = backendDispatch chrootManager.backend (bumpSandbox (mkTestSandbox "s" 0) 42)
          "echo hi" (effectiveTimeout none
            ((constHeap {}) (mkTestSandbox "s" 0).configRef).command_timeout)
          alwaysTimeout := by
  obtain ⟨m', res, h1, h2, h3, h4, h5, h6⟩ := execute_updates_activity_once chrootManager
    (constHeap {}) "s" "echo hi" none none 42 alwaysTimeout (mkTestSandbox "s" 0) rfl
  exact ⟨m', res, h1, h2, h3, h4, h5 "o" (by decide), h6⟩

theorem except_map_ok {ε α β : Type} (f : α → β) (x : Except ε α) (b : β)
    (h : x.map f = .ok b) : ∃ a, x = .ok a ∧ b = f a := by
  cases x with
  | error e => simp [Except.map] at h
  | ok a =>
    refine ⟨a, rfl, ?_⟩
    simpa [Except.map] using h.symm

theorem backendProvision_configRef (backend : String) (sb : Sandbox) (env : CreateEnv)
    {sb' : Sandbox} (h : backendProvision backend sb env = .ok sb') :
    sb'.configRef = sb.configRef := by
  unfold backendProvision at h
  by_cases h1 : (backend == "docker") = true
  · rw [if_pos h1] at h
    cases hdc : env.dockerCreate with
    | ok cid =>
      rw [hdc] at h
      injection h with h
      rw [← h]
    | error e =>
      rw [hdc] at h
      exact Except.noConfusion h
  · rw [if_neg h1] at h
    by_cases h2 : (backend == "k8s") = true
    · rw [if_pos h2] at h
      injection h with h
      rw [← h]
    · rw [if_neg h2] at h
      by_cases h3 : (backend == "chroot") = true
      · rw [if_pos h3] at h
        injection h with h
        rw [← h]
      · rw [if_neg h3] at h
        injection h with h
        rw [← h]

/-- C10 counterexample: with a caller-supplied config whose user_id is
`alice` and a caller-supplied (given) userId argument that is the empty
string, `create_sandbox` overwrites config.user_id with a fresh uuid, not
with the given argument (Python `user_id or str(uuid.uuid4())` treats the
empty string as falsy). -/
theorem create_sandbox_empty_user_id :
    ((create_sandbox emptyChrootManager (constHeap { user_id := some "alice" }) 0
        (some "") (some 0) testEnv).1 0).user_id = some "fresh-uuid"
      ∧ ((create_sandbox emptyChrootManager (constHeap { user_id := some "alice" }) 0
          (some "") (some 0) testEnv).1 0).user_id ≠ some "" := by
  constructor <;> decide

/-- C10 (amended): create_sandbox mutates the caller-supplied config
object in place — it unconditionally overwrites its user_id, with the
userId argument when a nonempty one is given and with a fresh uuid
otherwise (absent or empty: Python `or`), discarding any user id already
present — and the registered sandbox stores that same config object by
reference, so later mutations of the object are visible through the
sandbox. The heap mutation happens even when provisioning fails. -/
theorem create_sandbox_mutates_config_object
    (m : SandboxManager) (heap : ConfigHeap) (freshRef : Nat) (u : Option String)
    (r : Nat) (env : CreateEnv) :
    (create_sandbox m heap freshRef u (some r) env).1 r
        = { heap r with user_id := some (effectiveUserId u env.freshUserId) }
      ∧ (∀ i, i ≠ r → (create_sandbox m heap freshRef u (some r) env).1 i = heap i)
      ∧ (∀ m' sb, (create_sandbox m heap freshRef u (some r) env).2 = .ok (m', sb) →
          sb.configRef = r ∧ ∀ h2 c2, configOf (heapUpdate h2 r c2) sb = c2) := by
  refine ⟨?_, ?_, ?_⟩
  · show heapUpdate heap r
        { heap r with user_id := some (effectiveUserId u env.freshUserId) } r = _
    simp [heapUpdate]
  · intro i hi
    show heapUpdate heap r
        { heap r with user_id := some (effectiveUserId u env.freshUserId) } i = heap i
    simp [heapUpdate, hi]
  · intro m' sb h
    obtain ⟨sb1, hp, heq⟩ := except_map_ok _ _ _ h
    have hs : sb = sb1 := congrArg Prod.snd heq
    have hcr : sb.configRef = r := by
      rw [hs]
      exact backendProvision_configRef _ _ _ hp
    refine ⟨hcr, ?_⟩
    intro h2 c2
    unfold configOf heapUpdate
    rw [hcr]
    simp

theorem create_sandbox_mutates_config_object_witness :
    (create_sandbox emptyChrootManager (constHeap {}) 5 (some "bob") (some 0) testEnv).1 0
        = { (constHeap {} : ConfigHeap) 0 with
            user_id := some (effectiveUserId (some "bob") testEnv.freshUserId) }
      ∧ (create_sandbox emptyChrootManager (constHeap {}) 5 (some "bob") (some 0)
          testEnv).1 7 = constHeap {} 7
      ∧ ∃ m' sb, (create_sandbox emptyChrootManager (constHeap {}) 5 (some "bob")
          (some 0) testEnv).2 = .ok (m', sb) ∧ sb.configRef = 0 := by
  have h := create_sandbox_mutates_config_object emptyChrootManager (constHeap {}) 5
    (some "bob") 0 testEnv
  exact ⟨h.1, h.2.1 7 (by decide), ⟨_, _, rfl, (h.2.2 _ _ rfl).1⟩⟩
